import Mathlib

/-!
Verification development for the `go-to-run` Linux server-provisioning CLI.

Go strings are modelled as `List Char` (`Str`); external commands are
modelled as lists of argument strings, and the host system is modelled as
an oracle structure giving the result of `exec.LookPath`, `cmd.Run()`,
`cmd.Output()` and the file-system operations.  Functions that shell out
return the pair of the Go error (`Option Str`, `none` meaning a nil error)
and the trace of commands issued, in order.
-/

set_option maxHeartbeats 1000000

/-- Go string, as its list of characters. -/
abbrev Str : Type := List Char

/-- Characters of a Lean string literal, used to embed Go string literals. -/
def str (s : String) : Str := s.data

/-- Go `strings.HasSuffix s suffix`. -/
def hasSuffix (s suffix : Str) : Bool := List.isSuffixOf suffix s

/-- Go `strings.HasPrefix s pre`. -/
def startsWith (s pre : Str) : Bool := List.isPrefixOf pre s

/-- Go `strings.Contains s sub`: `sub` occurs in `s`. -/
def containsSub (s sub : Str) : Bool :=
  match s with
  | [] => startsWith [] sub
  | c :: t => startsWith (c :: t) sub || containsSub t sub

/-- Go `strings.ToLower`, on the ASCII range (all suffixes compared by the
repository are ASCII). -/
def toLowerStr (s : Str) : Str := s.map Char.toLower

/-- Go `strings.TrimSpace`: drop leading and trailing whitespace. -/
def trimSpace (s : Str) : Str :=
  ((s.dropWhile Char.isWhitespace).reverse.dropWhile Char.isWhitespace).reverse

/-- Go `strings.TrimSuffix s t`: cut a trailing `t` when present. -/
def trimSuffix (s t : Str) : Str :=
  if hasSuffix s t then s.take (s.length - t.length) else s

/-- Go `strings.Join parts sep`. -/
def joinStr (parts : List Str) (sep : Str) : Str := List.intercalate sep parts

/-- Go `fmt` rendering of a Go `int` (`%d`). -/
def intToStr (n : Int) : Str := (toString n).data

/-- Go `fmt` rendering of a Go non-negative `int` (`%d`). -/
def natToStr (n : Nat) : Str := (toString n).data

namespace Archive

/-- A command to an external process: program name followed by arguments. -/
abbrev Cmd : Type := List Str

/-- Oracle for the host system as seen by `pkg/archive`:
results of `cmd.Run()` (`none` = success), `cmd.Output()`,
`os.MkdirAll` and `os.WriteFile`. -/
structure AWorld where
  run : Cmd → Option Str
  cmdOutput : Cmd → Except Str Str
  mkdirAll : Str → Option Str
  writeFile : Str → Str → Option Str

/-- Go `ExtractManager.SupportedFormats`. -/
def SupportedFormats : List Str :=
  [str ".tar.gz", str ".tgz", str ".tar.bz2", str ".tbz2", str ".tar.xz", str ".txz",
   str ".tar", str ".gz", str ".bz2", str ".xz", str ".zip", str ".rar", str ".7z",
   str ".lz4", str ".zst", str ".lzop", str ".tar.zst", str ".tar.lz4"]

/-- Go `ExtractManager.isArchive`: the path ends with one of the supported
format suffixes (compared case-sensitively, as in the source loop). -/
def isArchive (filePath : Str) : Bool :=
  SupportedFormats.any (fun format => hasSuffix filePath format)

/-- Go `ExtractManager.detectArchiveType`: lower-case the path and test the
suffixes in the switch order of the source. -/
def detectArchiveType (filePath : Str) : String :=
  if hasSuffix (toLowerStr filePath) (str ".tar.gz") || hasSuffix (toLowerStr filePath) (str ".tgz") then "tar.gz"
  else if hasSuffix (toLowerStr filePath) (str ".tar.bz2") || hasSuffix (toLowerStr filePath) (str ".tbz2") then "tar.bz2"
  else if hasSuffix (toLowerStr filePath) (str ".tar.xz") || hasSuffix (toLowerStr filePath) (str ".txz") then "tar.xz"
  else if hasSuffix (toLowerStr filePath) (str ".tar.zst") then "tar.zst"
  else if hasSuffix (toLowerStr filePath) (str ".tar.lz4") then "tar.lz4"
  else if hasSuffix (toLowerStr filePath) (str ".tar") then "tar"
  else if hasSuffix (toLowerStr filePath) (str ".gz") then "gz"
  else if hasSuffix (toLowerStr filePath) (str ".bz2") then "bz2"
  else if hasSuffix (toLowerStr filePath) (str ".xz") then "xz"
  else if hasSuffix (toLowerStr filePath) (str ".zip") then "zip"
  else if hasSuffix (toLowerStr filePath) (str ".rar") then "rar"
  else if hasSuffix (toLowerStr filePath) (str ".7z") then "7z"
  else if hasSuffix (toLowerStr filePath) (str ".lz4") then "lz4"
  else if hasSuffix (toLowerStr filePath) (str ".zst") then "zst"
  else if hasSuffix (toLowerStr filePath) (str ".lzop") then "lzop"
  else "unknown"

/-- Go `filepath.Base`: the final path element (path cleaning of trailing
separators is not exercised by the claims). -/
def baseName (p : Str) : Str := (p.reverse.takeWhile (fun c => c ≠ '/')).reverse

/-- Go `filepath.Ext`: the suffix of the final element starting at its last
dot, empty when the final element has no dot. -/
def extName (p : Str) : Str :=
  let revLast := p.reverse.takeWhile (fun c => c ≠ '/')
  if revLast.contains '.' then '.' :: (revLast.takeWhile (fun c => c ≠ '.')).reverse
  else []

/-- Go `filepath.Join a b` (modelled as plain separator insertion). -/
def joinPath (a b : Str) : Str := a ++ ('/' :: b)

/-- Go `ExtractManager.getDefaultOutputDir`. -/
def getDefaultOutputDir (archivePath : Str) : Str :=
  let filename := baseName archivePath
  let base := trimSuffix filename (extName filename)
  joinPath (archivePath.reverse.dropWhile (fun c => c ≠ '/') |>.drop 1 |>.reverse) base

/-- Go `extractTarGz`: `tar -xzf path -C dir`. -/
def extractTarGz (w : AWorld) (archivePath outputDir : Str) : Option Str × List Cmd :=
  let cmd : Cmd := [str "tar", str "-xzf", archivePath, str "-C", outputDir]
  (w.run cmd, [cmd])

/-- Go `extractTarBz2`: `tar -xjf path -C dir`. -/
def extractTarBz2 (w : AWorld) (archivePath outputDir : Str) : Option Str × List Cmd :=
  let cmd : Cmd := [str "tar", str "-xjf", archivePath, str "-C", outputDir]
  (w.run cmd, [cmd])

/-- Go `extractTarXz`: `tar -xJf path -C dir`. -/
def extractTarXz (w : AWorld) (archivePath outputDir : Str) : Option Str × List Cmd :=
  let cmd : Cmd := [str "tar", str "-xJf", archivePath, str "-C", outputDir]
  (w.run cmd, [cmd])

/-- Go `extractTar`: `tar -xf path -C dir`. -/
def extractTar (w : AWorld) (archivePath outputDir : Str) : Option Str × List Cmd :=
  let cmd : Cmd := [str "tar", str "-xf", archivePath, str "-C", outputDir]
  (w.run cmd, [cmd])

/-- Go `extractGz`: `gunzip -c` then `os.WriteFile`. -/
def extractGz (w : AWorld) (archivePath outputDir : Str) : Option Str × List Cmd :=
  let outputFile := joinPath outputDir (trimSuffix (baseName archivePath) (str ".gz"))
  let cmd : Cmd := [str "gunzip", str "-c", archivePath]
  (match w.cmdOutput cmd with
   | Except.error e => some e
   | Except.ok o => w.writeFile outputFile o, [cmd])

/-- Go `extractBz2`: `bunzip2 -c` then `os.WriteFile`. -/
def extractBz2 (w : AWorld) (archivePath outputDir : Str) : Option Str × List Cmd :=
  let outputFile := joinPath outputDir (trimSuffix (baseName archivePath) (str ".bz2"))
  let cmd : Cmd := [str "bunzip2", str "-c", archivePath]
  (match w.cmdOutput cmd with
   | Except.error e => some e
   | Except.ok o => w.writeFile outputFile o, [cmd])

/-- Go `extractXz`: `xz -d -c` then `os.WriteFile`. -/
def extractXz (w : AWorld) (archivePath outputDir : Str) : Option Str × List Cmd :=
  let outputFile := joinPath outputDir (trimSuffix (baseName archivePath) (str ".xz"))
  let cmd : Cmd := [str "xz", str "-d", str "-c", archivePath]
  (match w.cmdOutput cmd with
   | Except.error e => some e
   | Except.ok o => w.writeFile outputFile o, [cmd])

/-- Go `extractZip`: `unzip -o path -d dir`. -/
def extractZip (w : AWorld) (archivePath outputDir : Str) : Option Str × List Cmd :=
  let cmd : Cmd := [str "unzip", str "-o", archivePath, str "-d", outputDir]
  (w.run cmd, [cmd])

/-- Go `extractRar`: `unrar x path dir`. -/
def extractRar (w : AWorld) (archivePath outputDir : Str) : Option Str × List Cmd :=
  let cmd : Cmd := [str "unrar", str "x", archivePath, outputDir]
  (w.run cmd, [cmd])

/-- Go `extract7z`: `7z x path -odir`. -/
def extract7z (w : AWorld) (archivePath outputDir : Str) : Option Str × List Cmd :=
  let cmd : Cmd := [str "7z", str "x", archivePath, str "-o" ++ outputDir]
  (w.run cmd, [cmd])

/-- Go `extractLz4`: `lz4 -d path outputFile`. -/
def extractLz4 (w : AWorld) (archivePath outputDir : Str) : Option Str × List Cmd :=
  let outputFile := joinPath outputDir (trimSuffix (baseName archivePath) (str ".lz4"))
  let cmd : Cmd := [str "lz4", str "-d", archivePath, outputFile]
  (w.run cmd, [cmd])

/-- Go `extractZstd`: `zstd -d path -o outputFile`. -/
def extractZstd (w : AWorld) (archivePath outputDir : Str) : Option Str × List Cmd :=
  let outputFile := joinPath outputDir (trimSuffix (baseName archivePath) (str ".zst"))
  let cmd : Cmd := [str "zstd", str "-d", archivePath, str "-o", outputFile]
  (w.run cmd, [cmd])

/-- Go `extractLzop`: `lzop -d path -o outputFile`. -/
def extractLzop (w : AWorld) (archivePath outputDir : Str) : Option Str × List Cmd :=
  let outputFile := joinPath outputDir (trimSuffix (baseName archivePath) (str ".lzop"))
  let cmd : Cmd := [str "lzop", str "-d", archivePath, str "-o", outputFile]
  (w.run cmd, [cmd])

/-- Go `extractTarZstd`: `tar --zstd -xf path -C dir`. -/
def extractTarZstd (w : AWorld) (archivePath outputDir : Str) : Option Str × List Cmd :=
  let cmd : Cmd := [str "tar", str "--zstd", str "-xf", archivePath, str "-C", outputDir]
  (w.run cmd, [cmd])

/-- Go `extractTarLz4`: `tar --lz4 -xf path -C dir`. -/
def extractTarLz4 (w : AWorld) (archivePath outputDir : Str) : Option Str × List Cmd :=
  let cmd : Cmd := [str "tar", str "--lz4", str "-xf", archivePath, str "-C", outputDir]
  (w.run cmd, [cmd])

/-- Go `ExtractManager.extractArchive`: dispatch on `detectArchiveType`
(the Go `switch` is written as its equivalent comparison chain). -/
def extractArchive (w : AWorld) (archivePath outputDir : Str) : Option Str × List Cmd :=
  if detectArchiveType archivePath = "tar.gz" ∨ detectArchiveType archivePath = "tgz" then extractTarGz w archivePath outputDir
  else if detectArchiveType archivePath = "tar.bz2" ∨ detectArchiveType archivePath = "tbz2" then extractTarBz2 w archivePath outputDir
  else if detectArchiveType archivePath = "tar.xz" ∨ detectArchiveType archivePath = "txz" then extractTarXz w archivePath outputDir
  else if detectArchiveType archivePath = "tar" then extractTar w archivePath outputDir
  else if detectArchiveType archivePath = "gz" then extractGz w archivePath outputDir
  else if detectArchiveType archivePath = "bz2" then extractBz2 w archivePath outputDir
  else if detectArchiveType archivePath = "xz" then extractXz w archivePath outputDir
  else if detectArchiveType archivePath = "zip" then extractZip w archivePath outputDir
  else if detectArchiveType archivePath = "rar" then extractRar w archivePath outputDir
  else if detectArchiveType archivePath = "7z" then extract7z w archivePath outputDir
  else if detectArchiveType archivePath = "lz4" then extractLz4 w archivePath outputDir
  else if detectArchiveType archivePath = "zst" then extractZstd w archivePath outputDir
  else if detectArchiveType archivePath = "lzop" then extractLzop w archivePath outputDir
  else if detectArchiveType archivePath = "tar.zst" then extractTarZstd w archivePath outputDir
  else if detectArchiveType archivePath = "tar.lz4" then extractTarLz4 w archivePath outputDir
  else (some (str "неподдерживаемый формат архива: " ++ (detectArchiveType archivePath).data), [])

/-- Go `extractWithProgress` (the spinner has no effect on the result). -/
def extractWithProgress (w : AWorld) (archivePath outputDir : Str) : Option Str × List Cmd :=
  extractArchive w archivePath outputDir

/-- Go `extractWithoutProgress`. -/
def extractWithoutProgress (w : AWorld) (archivePath outputDir : Str) : Option Str × List Cmd :=
  extractArchive w archivePath outputDir

/-- Go `ExtractManager.Extract`. -/
def Extract (w : AWorld) (archivePath outputDir : Str) (showProgress : Bool) :
    Option Str × List Cmd :=
  if isArchive archivePath = false then
    (some (str "неподдерживаемый формат архива: " ++ archivePath), [])
  else
    let outDir := if outputDir = [] then getDefaultOutputDir archivePath else outputDir
    match w.mkdirAll outDir with
    | some e => (some (str "ошибка создания директории: " ++ e), [])
    | none =>
      if showProgress then extractWithProgress w archivePath outDir
      else extractWithoutProgress w archivePath outDir

/-- A host on which every command succeeds, used to instantiate theorems. -/
def trivialAWorld : AWorld where
  run := fun _ => none
  cmdOutput := fun _ => Except.ok []
  mkdirAll := fun _ => none
  writeFile := fun _ _ => none

end Archive


namespace Cfg

/-- Go `config.SystemConfig`. -/
structure SystemConfig where
  Timezone : Str
  Hostname : Str
  SwapSize : Str
  Language : Str
  Locale : Str

/-- Go `config.FirewallRule`. -/
structure FirewallRule where
  Port : Int
  Protocol : Str
  Action : Str
  Comment : Str

/-- Go `config.SecurityConfig`. -/
structure SecurityConfig where
  SSHPort : Int
  OpenPorts : List Int
  AllowIPs : List Str
  EnableUFW : Bool
  EnableFail2ban : Bool
  FirewallRules : List FirewallRule

/-- Go `config.PackagesConfig`. -/
structure PackagesConfig where
  Basic : List Str
  Network : List Str
  Monitoring : List Str
  Development : List Str
  Archive : List Str
  Security : List Str
  System : List Str
  Database : List Str
  Web : List Str

/-- Go `config.Config`. -/
structure Config where
  System : SystemConfig
  Security : SecurityConfig
  Packages : PackagesConfig

/-- Insertion of a key into a `map[string]bool` used as a set: the key set
grows only when the key is new.  Go iterates maps in unspecified order; the
model enumerates keys in insertion order, and only order-insensitive facts
(membership, absence of duplicates) are proved about the result. -/
def insertKey (m : List Str) (k : Str) : List Str :=
  if k ∈ m then m else m ++ [k]

/-- Go `mergePackageLists` (the closure inside `MergeConfigs`): put the base
then the override entries into a string set and enumerate it. -/
def mergePackageLists (base override : List Str) : List Str :=
  override.foldl insertKey (base.foldl insertKey [])

/-- Go `config.MergeConfigs`, with Go nil pointers as `none`. -/
def MergeConfigs (base override : Option Config) : Option Config :=
  match base, override with
  | none, _ => override
  | some _, none => base
  | some b, some o =>
    some
      { System :=
          { Timezone := if o.System.Timezone ≠ [] then o.System.Timezone else b.System.Timezone
            Hostname := if o.System.Hostname ≠ [] then o.System.Hostname else b.System.Hostname
            SwapSize := if o.System.SwapSize ≠ [] then o.System.SwapSize else b.System.SwapSize
            Language := b.System.Language
            Locale := b.System.Locale }
        Security :=
          { SSHPort := if o.Security.SSHPort ≠ 0 then o.Security.SSHPort else b.Security.SSHPort
            OpenPorts := if o.Security.OpenPorts.length > 0 then o.Security.OpenPorts
              else b.Security.OpenPorts
            AllowIPs := if o.Security.AllowIPs.length > 0 then o.Security.AllowIPs
              else b.Security.AllowIPs
            EnableUFW := b.Security.EnableUFW
            EnableFail2ban := b.Security.EnableFail2ban
            FirewallRules := b.Security.FirewallRules }
        Packages :=
          { Basic := mergePackageLists b.Packages.Basic o.Packages.Basic
            Archive := mergePackageLists b.Packages.Archive o.Packages.Archive
            Network := mergePackageLists b.Packages.Network o.Packages.Network
            Monitoring := mergePackageLists b.Packages.Monitoring o.Packages.Monitoring
            Development := mergePackageLists b.Packages.Development o.Packages.Development
            Security := mergePackageLists b.Packages.Security o.Packages.Security
            System := mergePackageLists b.Packages.System o.Packages.System
            Database := b.Packages.Database
            Web := b.Packages.Web } }

/-- A merged per-category list is exactly the duplicate-free union. -/
def MergedCategory (ml bl ol : List Str) : Prop :=
  ml.Nodup ∧ ∀ x : Str, x ∈ ml ↔ x ∈ bl ∨ x ∈ ol

/-- Empty packages record, for the concrete counterexample configurations. -/
def emptyPackages : PackagesConfig :=
  { Basic := [], Network := [], Monitoring := [], Development := [], Archive := [],
    Security := [], System := [], Database := [], Web := [] }

/-- System section of the counterexample configurations. -/
def cexSystem : SystemConfig :=
  { Timezone := str "UTC", Hostname := [], SwapSize := [], Language := [], Locale := [] }

/-- Security section of the counterexample configurations. -/
def cexSecurity : SecurityConfig :=
  { SSHPort := 22, OpenPorts := [], AllowIPs := [], EnableUFW := true,
    EnableFail2ban := true, FirewallRules := [] }

/-- Base configuration of the `Web`-category counterexample. -/
def cexBase : Config :=
  { System := cexSystem, Security := cexSecurity, Packages := emptyPackages }

/-- Override configuration that adds a `Web` package. -/
def cexOverride : Config :=
  { cexBase with Packages := { emptyPackages with Web := [str "nginx"] } }

end Cfg


namespace Sys

/-- A command to an external process: program name followed by arguments. -/
abbrev Cmd : Type := List Str

/-- Oracle for the host system as seen by `internal/system`:
`exec.LookPath` success, `cmd.Run()` (`none` = success, otherwise the error
text), `cmd.Output()`, and the file-system operations used by the SSH
configuration editor. -/
structure SWorld where
  lookPath : Str → Bool
  run : Cmd → Option Str
  cmdOutput : Cmd → Except Str Str
  readFile : Str → Except Str Str
  writeFile : Str → Str → Option Str

/-- Go `system.PackageManager`. -/
structure PackageManager where
  Name : Str
  Update : Str
  Upgrade : Str
  Install : Str
  Remove : Str
  Clean : Str
  Check : Str

/-- The `apt` entry of `packageManagers`. -/
def aptPM : PackageManager :=
  { Name := str "apt", Update := str "apt update", Upgrade := str "apt upgrade -y",
    Install := str "apt install -y", Remove := str "apt remove -y",
    Clean := str "apt autoremove -y && apt autoclean", Check := str "apt list --upgradable" }

/-- The `dnf` entry of `packageManagers`. -/
def dnfPM : PackageManager :=
  { Name := str "dnf", Update := str "dnf check-update", Upgrade := str "dnf update -y",
    Install := str "dnf install -y", Remove := str "dnf remove -y",
    Clean := str "dnf clean all", Check := str "dnf check-update" }

/-- The `yum` entry of `packageManagers`. -/
def yumPM : PackageManager :=
  { Name := str "yum", Update := str "yum check-update", Upgrade := str "yum update -y",
    Install := str "yum install -y", Remove := str "yum remove -y",
    Clean := str "yum clean all", Check := str "yum check-update" }

/-- The `pacman` entry of `packageManagers`. -/
def pacmanPM : PackageManager :=
  { Name := str "pacman", Update := str "pacman -Sy", Upgrade := str "pacman -Syu --noconfirm",
    Install := str "pacman -S --noconfirm", Remove := str "pacman -R --noconfirm",
    Clean := str "pacman -Sc --noconfirm", Check := str "pacman -Qu" }

/-- The `apk` entry of `packageManagers`. -/
def apkPM : PackageManager :=
  { Name := str "apk", Update := str "apk update", Upgrade := str "apk upgrade",
    Install := str "apk add", Remove := str "apk del",
    Clean := str "apk cache clean", Check := str "apk version" }

/-- The `zypper` entry of `packageManagers`. -/
def zypperPM : PackageManager :=
  { Name := str "zypper", Update := str "zypper refresh", Upgrade := str "zypper update -y",
    Install := str "zypper install -y", Remove := str "zypper remove -y",
    Clean := str "zypper clean", Check := str "zypper list-updates" }

/-- The `packageManagers` lookup table, as its key/value pairs.  Go iterates
maps in unspecified order, so results are proved for every enumeration order
(every permutation of this association list). -/
def packageManagersList : List (Str × PackageManager) :=
  [(str "apt", aptPM), (str "dnf", dnfPM), (str "yum", yumPM),
   (str "pacman", pacmanPM), (str "apk", apkPM), (str "zypper", zypperPM)]

/-- Go `PackageManagerDetector.Detect`, over a given enumeration order of the
table: return the first entry whose command exists (`commandExists` is
`exec.LookPath`), the detection error when none does. -/
def Detect (ex : Str → Bool) : List (Str × PackageManager) → Option PackageManager
  | [] => none
  | e :: rest => if ex e.1 then some e.2 else Detect ex rest

/-- The per-package install command `pm.Install + " " + pkg`, run via `sh -c`. -/
def installPkgCmd (pm : PackageManager) (pkg : Str) : Cmd :=
  [str "sh", str "-c", pm.Install ++ str " " ++ pkg]

/-- The combined install command `pm.Install + " " + strings.Join(packages, " ")`. -/
def combinedInstallCmd (pm : PackageManager) (packages : List Str) : Cmd :=
  [str "sh", str "-c", pm.Install ++ str " " ++ joinStr packages (str " ")]

/-- The per-package fallback loop inside `installWithProgress`: install each
package in order, stopping at the first failure with the wrapped error. -/
def installOneByOne (w : SWorld) (pm : PackageManager) : List Str → Option Str × List Cmd
  | [] => (none, [])
  | pkg :: rest =>
    let cmd := installPkgCmd pm pkg
    match w.run cmd with
    | some e => (some (str "ошибка установки " ++ pkg ++ str ": " ++ e), [cmd])
    | none =>
      let r := installOneByOne w pm rest
      (r.1, cmd :: r.2)

/-- Go `installWithProgress` (progress-bar and spinner calls have no effect on
the result and are not modelled). -/
def installWithProgress (w : SWorld) (pm : PackageManager) (packages : List Str) :
    Option Str × List Cmd :=
  if pm.Name = str "apt" ∨ pm.Name = str "dnf" ∨ pm.Name = str "yum" then
    let installCmd := combinedInstallCmd pm packages
    match w.run installCmd with
    | some _ =>
      let r := installOneByOne w pm packages
      (r.1, installCmd :: r.2)
    | none => (none, [installCmd])
  else
    installOneByOne w pm packages

/-- Go `system.UpdateSystem`: refresh the package list, then upgrade. -/
def UpdateSystem (w : SWorld) (pm : PackageManager) : Option Str × List Cmd :=
  let updateCmd : Cmd := [str "sh", str "-c", pm.Update]
  match w.run updateCmd with
  | some e => (some (str "ошибка обновления списка пакетов: " ++ e), [updateCmd])
  | none =>
    let upgradeCmd : Cmd := [str "sh", str "-c", pm.Upgrade]
    match w.run upgradeCmd with
    | some e => (some (str "ошибка обновления пакетов: " ++ e), [updateCmd, upgradeCmd])
    | none => (none, [updateCmd, upgradeCmd])

/-- A host on which every command succeeds and every binary exists. -/
def trivialSWorld : SWorld where
  lookPath := fun _ => true
  run := fun _ => none
  cmdOutput := fun _ => Except.ok []
  readFile := fun _ => Except.ok []
  writeFile := fun _ _ => none

/-- A host where the combined `apt install -y git curl` command fails but
every other command succeeds. -/
def combinedFailWorld : SWorld where
  lookPath := fun _ => true
  run := fun c =>
    if c = [str "sh", str "-c", str "apt install -y git curl"] then
      some (str "exit status 100")
    else none
  cmdOutput := fun _ => Except.ok []
  readFile := fun _ => Except.ok []
  writeFile := fun _ _ => none

/-- Go `system.FirewallRule` (security.go). -/
structure FirewallRule where
  Port : Int
  Protocol : Str
  Action : Str
  Comment : Str

/-- Go `system.FirewallConfig` (security.go). -/
structure FirewallConfig where
  Enabled : Bool
  SSHPort : Int
  OpenPorts : List Int
  AllowIPs : List Str
  Rules : List FirewallRule

/-- Go `addPortRule`: the quoted-comment allow command run via `sh -c`. -/
def addPortRuleCmd (port : Int) (protocol comment : Str) : Cmd :=
  [str "sh", str "-c",
   str "ufw allow " ++ intToStr port ++ str "/" ++ protocol ++
     str " comment \x27" ++ comment ++ str "\x27"]

/-- The `OpenPorts` loop of `applyRules`, carrying the `seenPorts` set
(the Go `map[int]bool`, modelled as the list of marked ports). -/
def portRulesLoop (w : SWorld) (seen : List Int) : List Int → Option Str × List Cmd
  | [] => (none, [])
  | port :: rest =>
    if port ≤ 0 ∨ port > 65535 ∨ port ∈ seen then portRulesLoop w seen rest
    else
      let cmd := addPortRuleCmd port (str "tcp") (str "Port " ++ intToStr port)
      match w.run cmd with
      | some e => (some e, [cmd])
      | none =>
        let r := portRulesLoop w (port :: seen) rest
        (r.1, cmd :: r.2)

/-- The ports for which the `OpenPorts` loop issues a rule: entries of the
list in order, skipping out-of-range ports and ports already seen. -/
def dedupPorts (seen : List Int) : List Int → List Int
  | [] => []
  | port :: rest =>
    if port ≤ 0 ∨ port > 65535 ∨ port ∈ seen then dedupPorts seen rest
    else port :: dedupPorts (port :: seen) rest

/-- The SSH-port and `OpenPorts` part of `applyRules` (its first two blocks). -/
def portRulesPhase (w : SWorld) (config : FirewallConfig) : Option Str × List Cmd :=
  if 0 < config.SSHPort then
    let cmd := addPortRuleCmd config.SSHPort (str "tcp") (str "SSH access")
    match w.run cmd with
    | some e => (some e, [cmd])
    | none =>
      let r := portRulesLoop w [config.SSHPort] config.OpenPorts
      (r.1, cmd :: r.2)
  else
    portRulesLoop w [] config.OpenPorts

/-- Go `addCustomRule`. -/
def addCustomRule (w : SWorld) (rule : FirewallRule) : Option Str × List Cmd :=
  if rule.Action = str "allow" then
    let base := str "ufw allow " ++ intToStr rule.Port ++ str "/" ++ rule.Protocol
    let cmdStr := if rule.Comment ≠ [] then
        base ++ str " comment \x27" ++ rule.Comment ++ str "\x27"
      else base
    let c : Cmd := [str "sh", str "-c", cmdStr]
    (w.run c, [c])
  else if rule.Action = str "deny" then
    let base := str "ufw deny " ++ intToStr rule.Port ++ str "/" ++ rule.Protocol
    let cmdStr := if rule.Comment ≠ [] then
        base ++ str " comment \x27" ++ rule.Comment ++ str "\x27"
      else base
    let c : Cmd := [str "sh", str "-c", cmdStr]
    (w.run c, [c])
  else (some (str "неподдерживаемое действие: " ++ rule.Action), [])

/-- The custom-rules loop of `applyRules`. -/
def customRulesLoop (w : SWorld) : List FirewallRule → Option Str × List Cmd
  | [] => (none, [])
  | rule :: rest =>
    let r := addCustomRule w rule
    match r.1 with
    | some e => (some e, r.2)
    | none =>
      let s := customRulesLoop w rest
      (s.1, r.2 ++ s.2)

/-- The `AllowIPs` loop of `applyRules` (`allowIP`: `ufw allow from IP`). -/
def allowIPsLoop (w : SWorld) : List Str → Option Str × List Cmd
  | [] => (none, [])
  | ip :: rest =>
    let c : Cmd := [str "ufw", str "allow", str "from", ip]
    match w.run c with
    | some e => (some e, [c])
    | none =>
      let s := allowIPsLoop w rest
      (s.1, c :: s.2)

/-- Go `applyRules`: SSH port, then `OpenPorts`, then custom rules, then IPs. -/
def applyRules (w : SWorld) (config : FirewallConfig) : Option Str × List Cmd :=
  let p := portRulesPhase w config
  match p.1 with
  | some e => (some e, p.2)
  | none =>
    let c := customRulesLoop w config.Rules
    match c.1 with
    | some e => (some e, p.2 ++ c.2)
    | none =>
      let a := allowIPsLoop w config.AllowIPs
      (a.1, p.2 ++ c.2 ++ a.2)

/-- Go `installUFW`: detect the package manager and install the `ufw` package. -/
def installUFW (w : SWorld) (order : List (Str × PackageManager)) : Option Str × List Cmd :=
  match Detect w.lookPath order with
  | none => (some (str "не найден поддерживаемый менеджер пакетов"), [])
  | some pm =>
    let c : Cmd := [str "sh", str "-c", pm.Install ++ str " ufw"]
    (w.run c, [c])

/-- Go `SecurityManager.SetupFirewall`.  `ufw status`, `ufw status numbered`
and `ufw status verbose` are the read-only status commands; the others
modify UFW state. -/
def SetupFirewall (w : SWorld) (order : List (Str × PackageManager))
    (config : FirewallConfig) : Option Str × List Cmd :=
  if config.Enabled = false then (none, [])
  else
    let inst : Option Str × List Cmd :=
      if w.lookPath (str "ufw") then (none, [])
      else
        let r := installUFW w order
        match r.1 with
        | some e => (some (str "ошибка установки UFW: " ++ e), r.2)
        | none => (none, r.2)
    match inst.1 with
    | some e => (some e, inst.2)
    | none =>
      let statusCmd : Cmd := [str "ufw", str "status"]
      match w.cmdOutput statusCmd with
      | Except.error e =>
        (some (str "ошибка получения статуса UFW: " ++ e), inst.2 ++ [statusCmd])
      | Except.ok status =>
        if containsSub status (str "Status: active") then
          (none, inst.2 ++ [statusCmd, [str "ufw", str "status", str "numbered"]])
        else if containsSub status (str "Status: inactive") then
          let tr0 := inst.2 ++ [statusCmd]
          let resetCmd : Cmd := [str "ufw", str "--force", str "reset"]
          match w.run resetCmd with
          | some e => (some (str "ошибка сброса UFW: " ++ e), tr0 ++ [resetCmd])
          | none =>
            let denyCmd : Cmd := [str "ufw", str "default", str "deny", str "incoming"]
            match w.run denyCmd with
            | some e =>
              (some (str "ошибка настройки политик: " ++ e), tr0 ++ [resetCmd, denyCmd])
            | none =>
              let outCmd : Cmd := [str "ufw", str "default", str "allow", str "outgoing"]
              match w.run outCmd with
              | some e =>
                (some (str "ошибка настройки политик: " ++ e),
                 tr0 ++ [resetCmd, denyCmd, outCmd])
              | none =>
                let ar := applyRules w config
                match ar.1 with
                | some e =>
                  (some (str "ошибка применения правил: " ++ e),
                   tr0 ++ [resetCmd, denyCmd, outCmd] ++ ar.2)
                | none =>
                  let logCmd : Cmd := [str "ufw", str "logging", str "on"]
                  match w.run logCmd with
                  | some e =>
                    (some (str "ошибка включения логирования: " ++ e),
                     tr0 ++ [resetCmd, denyCmd, outCmd] ++ ar.2 ++ [logCmd])
                  | none =>
                    let enableCmd : Cmd := [str "sh", str "-c", str "yes | ufw enable"]
                    match w.run enableCmd with
                    | some e =>
                      (some (str "ошибка включения UFW: " ++ e),
                       tr0 ++ [resetCmd, denyCmd, outCmd] ++ ar.2 ++ [logCmd, enableCmd])
                    | none =>
                      (none, tr0 ++ [resetCmd, denyCmd, outCmd] ++ ar.2 ++
                        [logCmd, enableCmd, [str "ufw", str "status", str "verbose"]])
        else
          (none, inst.2 ++ [statusCmd, [str "ufw", str "status", str "verbose"]])

/-- A command that changes UFW state: any direct `ufw` invocation other than
`ufw status ...`, and any `sh -c` line that is a `ufw` rule command or the
piped `yes | ufw enable`. -/
def isUFWModifying (c : Cmd) : Bool :=
  match c with
  | [] => false
  | a :: rest =>
    (a == str "ufw" && !(rest.head? == some (str "status"))) ||
    (a == str "sh" &&
      match rest with
      | [flag, s] =>
        flag == str "-c" && (startsWith s (str "ufw ") || s == str "yes | ufw enable")
      | _ => false)

/-- A host whose `ufw status` output reports an active firewall and on which
everything else succeeds. -/
def activeStatusWorld : SWorld where
  lookPath := fun _ => true
  run := fun _ => none
  cmdOutput := fun c =>
    if c = [str "ufw", str "status"] then Except.ok (str "Status: active")
    else Except.ok []
  readFile := fun _ => Except.ok []
  writeFile := fun _ _ => none

/-- A custom rule allowing port 22 — the same port as the SSH rule. -/
def dupPortRule : FirewallRule :=
  { Port := 22, Protocol := str "tcp", Action := str "allow", Comment := [] }

/-- Firewall configuration whose custom rule duplicates the SSH port. -/
def dupRuleConfig : FirewallConfig :=
  { Enabled := true, SSHPort := 22, OpenPorts := [], AllowIPs := [], Rules := [dupPortRule] }

/-- Number of commands in a trace that allow a given port
(`sh -c "ufw allow PORT/..."`). -/
def countAllowFor (p : Int) (trace : List Cmd) : Nat :=
  (trace.filter (fun c =>
    match c with
    | [a, b, s] =>
      a == str "sh" && b == str "-c" && startsWith s (str "ufw allow " ++ intToStr p ++ str "/")
    | _ => false)).length

/-- The eight recommended lines `configureSSH` appends. -/
def recommendedSettings : List Str :=
  [[], str "# Additional security settings", str "Protocol 2",
   str "ClientAliveInterval 300", str "ClientAliveCountMax 2", str "MaxAuthTries 3",
   str "MaxSessions 10", str "X11Forwarding no"]

/-- The body of the per-line loop in `configureSSH`. -/
def rewriteSSHLine (port : Int) (allowRoot passwordAuth : Bool) (line : Str) : Str :=
  let trimmed := trimSpace line
  if startsWith trimmed (str "#") || trimmed.isEmpty then line
  else if startsWith trimmed (str "Port ") then str "Port " ++ intToStr port
  else if startsWith trimmed (str "PermitRootLogin ") then
    str "PermitRootLogin " ++ (if allowRoot then str "yes" else str "no")
  else if startsWith trimmed (str "PasswordAuthentication ") then
    str "PasswordAuthentication " ++ (if passwordAuth then str "yes" else str "no")
  else line

/-- The content rewrite performed by `configureSSH`: split on newlines,
rewrite each line, append the recommended settings, join with newlines. -/
def configureSSHContent (port : Int) (allowRoot passwordAuth : Bool) (config : Str) : Str :=
  let lines := config.splitOn '\n'
  joinStr (lines.map (rewriteSSHLine port allowRoot passwordAuth) ++ recommendedSettings)
    (str "\n")

/-- Go `configureSSH`: read `/etc/ssh/sshd_config`, rewrite, write back. -/
def configureSSH (w : SWorld) (port : Int) (allowRoot passwordAuth : Bool) : Option Str :=
  match w.readFile (str "/etc/ssh/sshd_config") with
  | Except.error e => some e
  | Except.ok config =>
    w.writeFile (str "/etc/ssh/sshd_config")
      (configureSSHContent port allowRoot passwordAuth config)

end Sys



namespace Ui

/-- The error message built for a failed task: `задача INDEX: ERR`. -/
def taskErrorMsg (idx : Nat) (e : Str) : Str :=
  str "задача " ++ natToStr idx ++ str ": " ++ e

/-- The error list accumulated by the collection loop of `ParallelProgress`,
from the collected `(index, task error)` results. -/
def collectErrors (collected : List (Nat × Option Str)) : List Str :=
  collected.filterMap (fun r => (r.2).map (taskErrorMsg r.1))

/-- Rendering of the `[]error` slice by the `%v` verb of the fmt package. -/
def renderErrors (errs : List Str) : Str :=
  str "[" ++ joinStr errs (str " ") ++ str "]"

/-- Go `ProgressManager.ParallelProgress`, as a function of the sequence of
results read off the buffered channel.  Each task sends exactly one
`(index, error)` result, the channel holds all of them (it is buffered to
the task count), and the loop receives exactly one result per task, so the
collected sequence is a permutation of the indexed task results; theorems
quantify over that permutation. -/
def ParallelProgress (collected : List (Nat × Option Str)) : Option Str :=
  let errors := collectErrors collected
  if errors.length > 0 then
    some (str "ошибки в " ++ natToStr errors.length ++ str " задачах: " ++
      renderErrors errors)
  else none

end Ui

-- ===== Theorems =====

theorem hasSuffix_iff (s t : Str) : hasSuffix s t = true ↔ t <:+ s := by
  simp [hasSuffix, List.isSuffixOf_iff_suffix]

theorem suffix_total (l a b : Str) (ha : a <:+ l) (hb : b <:+ l) : a <:+ b ∨ b <:+ a := by
  rw [← List.reverse_prefix] at ha hb ⊢
  rw [← List.reverse_prefix]
  exact List.prefix_or_prefix_of_prefix ha hb

theorem hasSuffix_eq_false_of (l a b : Str) (ha : hasSuffix l a = true)
    (h1 : ¬ a <:+ b) (h2 : ¬ b <:+ a) : hasSuffix l b = false := by
  rw [hasSuffix_iff] at ha
  rw [Bool.eq_false_iff, Ne, hasSuffix_iff]
  intro hb
  rcases suffix_total l a b ha hb with h | h
  · exact h1 h
  · exact h2 h

theorem hasSuffix_toLower (p s : Str) (hs : toLowerStr s = s) (h : hasSuffix p s = true) :
    hasSuffix (toLowerStr p) s = true := by
  rw [hasSuffix_iff] at h ⊢
  have hm := h.map Char.toLower
  rwa [show (s.map Char.toLower) = s from hs] at hm

namespace Archive

theorem detect_of_tarGz (p : Str) (h : hasSuffix p (str ".tar.gz") = true) :
    detectArchiveType p = "tar.gz" := by
  have hl := hasSuffix_toLower p _ (by decide) h
  simp [detectArchiveType, hl]

theorem detect_of_tarBz2 (p : Str) (h : hasSuffix p (str ".tar.bz2") = true) :
    detectArchiveType p = "tar.bz2" := by
  have hl := hasSuffix_toLower p _ (by decide) h
  have n1 := hasSuffix_eq_false_of _ _ (str ".tar.gz") hl (by decide) (by decide)
  have n2 := hasSuffix_eq_false_of _ _ (str ".tgz") hl (by decide) (by decide)
  simp [detectArchiveType, hl, n1, n2]

theorem detect_of_tarXz (p : Str) (h : hasSuffix p (str ".tar.xz") = true) :
    detectArchiveType p = "tar.xz" := by
  have hl := hasSuffix_toLower p _ (by decide) h
  have n1 := hasSuffix_eq_false_of _ _ (str ".tar.gz") hl (by decide) (by decide)
  have n2 := hasSuffix_eq_false_of _ _ (str ".tgz") hl (by decide) (by decide)
  have n3 := hasSuffix_eq_false_of _ _ (str ".tar.bz2") hl (by decide) (by decide)
  have n4 := hasSuffix_eq_false_of _ _ (str ".tbz2") hl (by decide) (by decide)
  simp [detectArchiveType, hl, n1, n2, n3, n4]

theorem detect_of_tarZst (p : Str) (h : hasSuffix p (str ".tar.zst") = true) :
    detectArchiveType p = "tar.zst" := by
  have hl := hasSuffix_toLower p _ (by decide) h
  have n1 := hasSuffix_eq_false_of _ _ (str ".tar.gz") hl (by decide) (by decide)
  have n2 := hasSuffix_eq_false_of _ _ (str ".tgz") hl (by decide) (by decide)
  have n3 := hasSuffix_eq_false_of _ _ (str ".tar.bz2") hl (by decide) (by decide)
  have n4 := hasSuffix_eq_false_of _ _ (str ".tbz2") hl (by decide) (by decide)
  have n5 := hasSuffix_eq_false_of _ _ (str ".tar.xz") hl (by decide) (by decide)
  have n6 := hasSuffix_eq_false_of _ _ (str ".txz") hl (by decide) (by decide)
  simp [detectArchiveType, hl, n1, n2, n3, n4, n5, n6]

theorem detect_of_tarLz4 (p : Str) (h : hasSuffix p (str ".tar.lz4") = true) :
    detectArchiveType p = "tar.lz4" := by
  have hl := hasSuffix_toLower p _ (by decide) h
  have n1 := hasSuffix_eq_false_of _ _ (str ".tar.gz") hl (by decide) (by decide)
  have n2 := hasSuffix_eq_false_of _ _ (str ".tgz") hl (by decide) (by decide)
  have n3 := hasSuffix_eq_false_of _ _ (str ".tar.bz2") hl (by decide) (by decide)
  have n4 := hasSuffix_eq_false_of _ _ (str ".tbz2") hl (by decide) (by decide)
  have n5 := hasSuffix_eq_false_of _ _ (str ".tar.xz") hl (by decide) (by decide)
  have n6 := hasSuffix_eq_false_of _ _ (str ".txz") hl (by decide) (by decide)
  have n7 := hasSuffix_eq_false_of _ _ (str ".tar.zst") hl (by decide) (by decide)
  simp [detectArchiveType, hl, n1, n2, n3, n4, n5, n6, n7]

theorem detect_cases (p : Str) :
    detectArchiveType p ∈ ["tar.gz", "tar.bz2", "tar.xz", "tar.zst", "tar.lz4", "tar",
      "gz", "bz2", "xz", "zip", "rar", "7z", "lz4", "zst", "lzop", "unknown"] := by
  unfold detectArchiveType
  by_cases h1 : (hasSuffix (toLowerStr p) (str ".tar.gz") || hasSuffix (toLowerStr p) (str ".tgz")) = true
  · rw [if_pos h1]; decide
  rw [if_neg h1]
  by_cases h2 : (hasSuffix (toLowerStr p) (str ".tar.bz2") || hasSuffix (toLowerStr p) (str ".tbz2")) = true
  · rw [if_pos h2]; decide
  rw [if_neg h2]
  by_cases h3 : (hasSuffix (toLowerStr p) (str ".tar.xz") || hasSuffix (toLowerStr p) (str ".txz")) = true
  · rw [if_pos h3]; decide
  rw [if_neg h3]
  by_cases h4 : hasSuffix (toLowerStr p) (str ".tar.zst") = true
  · rw [if_pos h4]; decide
  rw [if_neg h4]
  by_cases h5 : hasSuffix (toLowerStr p) (str ".tar.lz4") = true
  · rw [if_pos h5]; decide
  rw [if_neg h5]
  by_cases h6 : hasSuffix (toLowerStr p) (str ".tar") = true
  · rw [if_pos h6]; decide
  rw [if_neg h6]
  by_cases h7 : hasSuffix (toLowerStr p) (str ".gz") = true
  · rw [if_pos h7]; decide
  rw [if_neg h7]
  by_cases h8 : hasSuffix (toLowerStr p) (str ".bz2") = true
  · rw [if_pos h8]; decide
  rw [if_neg h8]
  by_cases h9 : hasSuffix (toLowerStr p) (str ".xz") = true
  · rw [if_pos h9]; decide
  rw [if_neg h9]
  by_cases h10 : hasSuffix (toLowerStr p) (str ".zip") = true
  · rw [if_pos h10]; decide
  rw [if_neg h10]
  by_cases h11 : hasSuffix (toLowerStr p) (str ".rar") = true
  · rw [if_pos h11]; decide
  rw [if_neg h11]
  by_cases h12 : hasSuffix (toLowerStr p) (str ".7z") = true
  · rw [if_pos h12]; decide
  rw [if_neg h12]
  by_cases h13 : hasSuffix (toLowerStr p) (str ".lz4") = true
  · rw [if_pos h13]; decide
  rw [if_neg h13]
  by_cases h14 : hasSuffix (toLowerStr p) (str ".zst") = true
  · rw [if_pos h14]; decide
  rw [if_neg h14]
  by_cases h15 : hasSuffix (toLowerStr p) (str ".lzop") = true
  · rw [if_pos h15]; decide
  rw [if_neg h15]
  decide

theorem detect_unknown_suffixes (p : Str) (h : detectArchiveType p = "unknown") :
    ∀ s ∈ SupportedFormats, hasSuffix (toLowerStr p) s = false := by
  intro s hs
  simp only [SupportedFormats, List.mem_cons, List.not_mem_nil, or_false] at hs
  unfold detectArchiveType at h
  by_cases h1 : (hasSuffix (toLowerStr p) (str ".tar.gz") || hasSuffix (toLowerStr p) (str ".tgz")) = true
  · rw [if_pos h1] at h; exact absurd h (by decide)
  rw [if_neg h1] at h
  by_cases h2 : (hasSuffix (toLowerStr p) (str ".tar.bz2") || hasSuffix (toLowerStr p) (str ".tbz2")) = true
  · rw [if_pos h2] at h; exact absurd h (by decide)
  rw [if_neg h2] at h
  by_cases h3 : (hasSuffix (toLowerStr p) (str ".tar.xz") || hasSuffix (toLowerStr p) (str ".txz")) = true
  · rw [if_pos h3] at h; exact absurd h (by decide)
  rw [if_neg h3] at h
  by_cases h4 : hasSuffix (toLowerStr p) (str ".tar.zst") = true
  · rw [if_pos h4] at h; exact absurd h (by decide)
  rw [if_neg h4] at h
  by_cases h5 : hasSuffix (toLowerStr p) (str ".tar.lz4") = true
  · rw [if_pos h5] at h; exact absurd h (by decide)
  rw [if_neg h5] at h
  by_cases h6 : hasSuffix (toLowerStr p) (str ".tar") = true
  · rw [if_pos h6] at h; exact absurd h (by decide)
  rw [if_neg h6] at h
  by_cases h7 : hasSuffix (toLowerStr p) (str ".gz") = true
  · rw [if_pos h7] at h; exact absurd h (by decide)
  rw [if_neg h7] at h
  by_cases h8 : hasSuffix (toLowerStr p) (str ".bz2") = true
  · rw [if_pos h8] at h; exact absurd h (by decide)
  rw [if_neg h8] at h
  by_cases h9 : hasSuffix (toLowerStr p) (str ".xz") = true
  · rw [if_pos h9] at h; exact absurd h (by decide)
  rw [if_neg h9] at h
  by_cases h10 : hasSuffix (toLowerStr p) (str ".zip") = true
  · rw [if_pos h10] at h; exact absurd h (by decide)
  rw [if_neg h10] at h
  by_cases h11 : hasSuffix (toLowerStr p) (str ".rar") = true
  · rw [if_pos h11] at h; exact absurd h (by decide)
  rw [if_neg h11] at h
  by_cases h12 : hasSuffix (toLowerStr p) (str ".7z") = true
  · rw [if_pos h12] at h; exact absurd h (by decide)
  rw [if_neg h12] at h
  by_cases h13 : hasSuffix (toLowerStr p) (str ".lz4") = true
  · rw [if_pos h13] at h; exact absurd h (by decide)
  rw [if_neg h13] at h
  by_cases h14 : hasSuffix (toLowerStr p) (str ".zst") = true
  · rw [if_pos h14] at h; exact absurd h (by decide)
  rw [if_neg h14] at h
  by_cases h15 : hasSuffix (toLowerStr p) (str ".lzop") = true
  · rw [if_pos h15] at h; exact absurd h (by decide)
  rw [if_neg h15] at h
  simp only [Bool.or_eq_true, not_or, Bool.not_eq_true] at h1
  simp only [Bool.or_eq_true, not_or, Bool.not_eq_true] at h2
  simp only [Bool.or_eq_true, not_or, Bool.not_eq_true] at h3
  simp only [Bool.not_eq_true] at h4
  simp only [Bool.not_eq_true] at h5
  simp only [Bool.not_eq_true] at h6
  simp only [Bool.not_eq_true] at h7
  simp only [Bool.not_eq_true] at h8
  simp only [Bool.not_eq_true] at h9
  simp only [Bool.not_eq_true] at h10
  simp only [Bool.not_eq_true] at h11
  simp only [Bool.not_eq_true] at h12
  simp only [Bool.not_eq_true] at h13
  simp only [Bool.not_eq_true] at h14
  simp only [Bool.not_eq_true] at h15
  rcases hs with rfl | rfl | rfl | rfl | rfl | rfl | rfl | rfl | rfl | rfl | rfl | rfl |
    rfl | rfl | rfl | rfl | rfl | rfl
  exacts [h1.1, h1.2, h2.1, h2.2, h3.1, h3.2, h6, h7, h8, h9, h10, h11, h12, h13, h14,
    h15, h4, h5]

/-- C8: every path accepted by `isArchive` (the guard `Extract` checks first)
is given a type other than `"unknown"` by `detectArchiveType`, so the
unsupported-format default branch of `extractArchive` — the only branch that
issues no extractor command — is unreachable on calls made through `Extract`. -/
theorem archive_isArchive_detect_known (p : Str) (h : isArchive p = true) :
    detectArchiveType p ≠ "unknown" ∧
    ∀ (w : AWorld) (outputDir : Str), (extractArchive w p outputDir).2 ≠ [] := by
  have hex : ∃ s ∈ SupportedFormats, hasSuffix p s = true := by
    simpa [isArchive, List.any_eq_true] using h
  obtain ⟨s, hs, hsuf⟩ := hex
  have hfix : toLowerStr s = s := by
    have hs' := hs
    simp only [SupportedFormats, List.mem_cons, List.not_mem_nil, or_false] at hs'
    rcases hs' with rfl | rfl | rfl | rfl | rfl | rfl | rfl | rfl | rfl | rfl | rfl | rfl |
      rfl | rfl | rfl | rfl | rfl | rfl <;> decide
  have hl : hasSuffix (toLowerStr p) s = true := hasSuffix_toLower p s hfix hsuf
  have hne : detectArchiveType p ≠ "unknown" := by
    intro hu
    have hfalse := detect_unknown_suffixes p hu s hs
    rw [hfalse] at hl
    cases hl
  refine ⟨hne, ?_⟩
  intro w outputDir
  have hmem := detect_cases p
  simp only [List.mem_cons, List.not_mem_nil, or_false] at hmem
  rcases hmem with ht | ht | ht | ht | ht | ht | ht | ht | ht | ht | ht | ht | ht | ht | ht | ht
  all_goals first
    | exact absurd ht hne
    | simp [extractArchive, ht, extractTarGz, extractTarBz2, extractTarXz, extractTar,
        extractGz, extractBz2, extractXz, extractZip, extractRar, extract7z, extractLz4,
        extractZstd, extractLzop, extractTarZstd, extractTarLz4]

/-- C8 witness at `"a.tar.gz"`. -/
theorem archive_isArchive_detect_known_witness :
    detectArchiveType (str "a.tar.gz") ≠ "unknown" ∧
    (extractArchive trivialAWorld (str "a.tar.gz") (str "/out")).2 ≠ [] :=
  ⟨(archive_isArchive_detect_known (str "a.tar.gz") (by decide)).1,
   (archive_isArchive_detect_known (str "a.tar.gz") (by decide)).2 trivialAWorld (str "/out")⟩

/-- C2: `Extract` dispatches on the filename suffix alone: a path not ending
in a supported extension yields the unsupported-format error with an empty
command trace, an accepted path (once the output directory is created)
is handed to `extractArchive`, which selects the extractor for
`detectArchiveType`, and the compound suffixes `.tar.gz`, `.tar.bz2`,
`.tar.xz`, `.tar.zst`, `.tar.lz4` are detected in preference to their
single-extension suffixes. -/
theorem archive_extract_dispatch_on_suffix :
    (∀ (w : AWorld) (p d : Str) (sp : Bool), isArchive p = false →
      Extract w p d sp = (some (str "неподдерживаемый формат архива: " ++ p), [])) ∧
    (∀ (w : AWorld) (p d : Str) (sp : Bool), isArchive p = true →
      w.mkdirAll (if d = [] then getDefaultOutputDir p else d) = none →
      Extract w p d sp = extractArchive w p (if d = [] then getDefaultOutputDir p else d)) ∧
    (∀ p : Str, hasSuffix p (str ".tar.gz") = true → detectArchiveType p = "tar.gz") ∧
    (∀ p : Str, hasSuffix p (str ".tar.bz2") = true → detectArchiveType p = "tar.bz2") ∧
    (∀ p : Str, hasSuffix p (str ".tar.xz") = true → detectArchiveType p = "tar.xz") ∧
    (∀ p : Str, hasSuffix p (str ".tar.zst") = true → detectArchiveType p = "tar.zst") ∧
    (∀ p : Str, hasSuffix p (str ".tar.lz4") = true → detectArchiveType p = "tar.lz4") := by
  refine ⟨?_, ?_, detect_of_tarGz, detect_of_tarBz2, detect_of_tarXz, detect_of_tarZst,
    detect_of_tarLz4⟩
  · intro w p d sp h
    simp [Extract, h]
  · intro w p d sp h hm
    cases sp <;>
      simp [Extract, h, hm, extractWithProgress, extractWithoutProgress]

/-- C2 witness: a rejected `.txt` path, an accepted `.zip` path, and the
`.tar.gz` precedence fact, each at a concrete input. -/
theorem archive_extract_dispatch_on_suffix_witness :
    Extract trivialAWorld (str "notes.txt") (str "/out") true =
      (some (str "неподдерживаемый формат архива: " ++ str "notes.txt"), []) ∧
    Extract trivialAWorld (str "a.zip") (str "/out") false =
      extractArchive trivialAWorld (str "a.zip") (str "/out") ∧
    detectArchiveType (str "b.tar.gz") = "tar.gz" :=
  ⟨archive_extract_dispatch_on_suffix.1 trivialAWorld (str "notes.txt") (str "/out") true
      (by decide),
   by
    have h2 := archive_extract_dispatch_on_suffix.2.1 trivialAWorld (str "a.zip") (str "/out")
      false (by decide) (by decide)
    simpa using h2,
   archive_extract_dispatch_on_suffix.2.2.1 (str "b.tar.gz") (by decide)⟩

end Archive

namespace Cfg

theorem insertKey_mem (m : List Str) (k x : Str) : x ∈ insertKey m k ↔ x ∈ m ∨ x = k := by
  unfold insertKey
  by_cases h : k ∈ m
  · rw [if_pos h]
    constructor
    · exact fun hx => Or.inl hx
    · rintro (hx | rfl)
      · exact hx
      · exact h
  · rw [if_neg h]
    simp

theorem insertKey_nodup (m : List Str) (k : Str) (h : m.Nodup) : (insertKey m k).Nodup := by
  unfold insertKey
  by_cases hk : k ∈ m
  · rwa [if_pos hk]
  · rw [if_neg hk]
    simpa [List.nodup_append] using ⟨h, hk⟩

theorem foldl_insertKey_mem (l : List Str) :
    ∀ (acc : List Str) (x : Str), x ∈ l.foldl insertKey acc ↔ x ∈ acc ∨ x ∈ l := by
  induction l with
  | nil => simp
  | cons a t ih =>
    intro acc x
    rw [List.foldl_cons, ih, insertKey_mem]
    simp [or_assoc]

theorem foldl_insertKey_nodup (l : List Str) :
    ∀ acc : List Str, acc.Nodup → (l.foldl insertKey acc).Nodup := by
  induction l with
  | nil => exact fun acc h => h
  | cons a t ih =>
    intro acc h
    exact ih (insertKey acc a) (insertKey_nodup acc a h)

theorem mergePackageLists_spec (bl ol : List Str) :
    MergedCategory (mergePackageLists bl ol) bl ol := by
  constructor
  · exact foldl_insertKey_nodup ol _ (foldl_insertKey_nodup bl [] List.nodup_nil)
  · intro x
    unfold mergePackageLists
    rw [foldl_insertKey_mem, foldl_insertKey_mem]
    simp [or_comm]

/-- C10 (counterexample): `MergeConfigs` leaves the `Web` category untouched,
so the override package `"nginx"` is missing from the merged `Web` list. -/
theorem cfg_mergeConfigs_web_cex :
    str "nginx" ∈ cexOverride.Packages.Web ∧
    (MergeConfigs (some cexBase) (some cexOverride)).map (fun c => c.Packages.Web) =
      some [] := by
  constructor
  · decide
  · decide

/-- C10 (amended): for non-nil configurations, the seven categories that
`MergeConfigs` passes through `mergePackageLists` (`Basic`, `Archive`,
`Network`, `Monitoring`, `Development`, `Security`, `System`) each become the
duplicate-free set union of base and override, while `Database` and `Web` are
copied from the base unchanged. -/
theorem cfg_mergeConfigs_union_amended (b o : Config) :
    ∃ m : Config, MergeConfigs (some b) (some o) = some m ∧
      MergedCategory m.Packages.Basic b.Packages.Basic o.Packages.Basic ∧
      MergedCategory m.Packages.Archive b.Packages.Archive o.Packages.Archive ∧
      MergedCategory m.Packages.Network b.Packages.Network o.Packages.Network ∧
      MergedCategory m.Packages.Monitoring b.Packages.Monitoring o.Packages.Monitoring ∧
      MergedCategory m.Packages.Development b.Packages.Development o.Packages.Development ∧
      MergedCategory m.Packages.Security b.Packages.Security o.Packages.Security ∧
      MergedCategory m.Packages.System b.Packages.System o.Packages.System ∧
      m.Packages.Database = b.Packages.Database ∧
      m.Packages.Web = b.Packages.Web :=
  ⟨_, rfl, mergePackageLists_spec _ _, mergePackageLists_spec _ _,
    mergePackageLists_spec _ _, mergePackageLists_spec _ _, mergePackageLists_spec _ _,
    mergePackageLists_spec _ _, mergePackageLists_spec _ _, rfl, rfl⟩

end Cfg

namespace Sys

theorem detect_some_mem (ex : Str → Bool) :
    ∀ (l : List (Str × PackageManager)) (pm : PackageManager), Detect ex l = some pm →
      ∃ c : Str, (c, pm) ∈ l ∧ ex c = true := by
  intro l
  induction l with
  | nil => intro pm h; cases h
  | cons e t ih =>
    intro pm h
    simp only [Detect] at h
    by_cases hx : ex e.1 = true
    · rw [if_pos hx] at h
      cases h
      exact ⟨e.1, by simp, hx⟩
    · rw [if_neg hx] at h
      obtain ⟨c, hc, hex⟩ := ih pm h
      exact ⟨c, List.mem_cons_of_mem e hc, hex⟩

theorem detect_none_iff (ex : Str → Bool) :
    ∀ l : List (Str × PackageManager), Detect ex l = none ↔ ∀ e ∈ l, ex e.1 = false := by
  intro l
  induction l with
  | nil =>
    constructor
    · intro _ e he; cases he
    · intro _; rfl
  | cons e t ih =>
    simp only [Detect]
    by_cases hx : ex e.1 = true
    · rw [if_pos hx]
      constructor
      · intro h; cases h
      · intro hall
        exact absurd (hall e (List.mem_cons_self e t)) (by simp [hx])
    · rw [if_neg hx, ih]
      constructor
      · intro h e2 he2
        rcases List.mem_cons.mp he2 with rfl | hm
        · exact Bool.eq_false_iff.mpr hx
        · exact h e2 hm
      · intro h e2 he2
        exact h e2 (List.mem_cons_of_mem e he2)

/-- C3: on every enumeration order of the `packageManagers` table, `Detect`
returns a table entry whose command exists on the host, and returns the
detection error exactly when none of the six commands exists. -/
theorem sys_detect_package_manager (ex : Str → Bool) (l : List (Str × PackageManager))
    (hperm : l.Perm packageManagersList) :
    (∀ pm : PackageManager, Detect ex l = some pm →
      ∃ c : Str, (c, pm) ∈ packageManagersList ∧ ex c = true ∧ pm.Name = c) ∧
    (Detect ex l = none ↔ ∀ e ∈ packageManagersList, ex e.1 = false) := by
  constructor
  · intro pm h
    obtain ⟨c, hc, hex⟩ := detect_some_mem ex l pm h
    have hmem : (c, pm) ∈ packageManagersList := hperm.subset hc
    have hname : pm.Name = c := by
      have htab : ∀ e ∈ packageManagersList, (e.2).Name = e.1 := by decide
      exact htab (c, pm) hmem
    exact ⟨c, hmem, hex, hname⟩
  · rw [detect_none_iff]
    constructor
    · intro h e he
      exact h e (hperm.mem_iff.mpr he)
    · intro h e he
      exact h e (hperm.subset he)

/-- C3 witness: when no command exists, detection fails on the own order of
the table. -/
theorem sys_detect_package_manager_witness :
    Detect (fun _ => false) packageManagersList = none :=
  (sys_detect_package_manager (fun _ => false) packageManagersList (List.Perm.refl _)).2.mpr
    (by decide)

theorem installOneByOne_all_ok (w : SWorld) (pm : PackageManager) :
    ∀ packages : List Str, (∀ p ∈ packages, w.run (installPkgCmd pm p) = none) →
      installOneByOne w pm packages = (none, packages.map (installPkgCmd pm)) := by
  intro packages
  induction packages with
  | nil => intro _; rfl
  | cons a t ih =>
    intro h
    have ha : w.run (installPkgCmd pm a) = none := h a (by simp)
    simp only [installOneByOne, ha, List.map_cons]
    rw [ih (fun p hp => h p (List.mem_cons_of_mem a hp))]

theorem installOneByOne_first_fail (w : SWorld) (pm : PackageManager) (p : Str) (e : Str)
    (hp : w.run (installPkgCmd pm p) = some e) :
    ∀ xs ys : List Str, (∀ q ∈ xs, w.run (installPkgCmd pm q) = none) →
      installOneByOne w pm (xs ++ p :: ys) =
        (some (str "ошибка установки " ++ p ++ str ": " ++ e),
          xs.map (installPkgCmd pm) ++ [installPkgCmd pm p]) := by
  intro xs
  induction xs with
  | nil => intro ys _; simp [installOneByOne, hp]
  | cons a t ih =>
    intro ys h
    have ha : w.run (installPkgCmd pm a) = none := h a (by simp)
    simp only [List.cons_append, installOneByOne, ha, List.map_cons, List.append_eq]
    rw [ih ys (fun q hq => h q (List.mem_cons_of_mem a hq))]

/-- C1: for `apt`/`dnf`/`yum` and a non-empty package list,
`installWithProgress` first runs the single combined install command; if it
succeeds nothing else runs and the result is nil, and if it fails the
packages are installed one-by-one in list order — nil when every individual
install succeeds, and the wrapped error naming the first failing package
otherwise. -/
theorem sys_installWithProgress_fallback (w : SWorld) (pm : PackageManager)
    (packages : List Str)
    (hname : pm.Name = str "apt" ∨ pm.Name = str "dnf" ∨ pm.Name = str "yum")
    (hne : packages ≠ []) :
    (w.run (combinedInstallCmd pm packages) = none →
      installWithProgress w pm packages = (none, [combinedInstallCmd pm packages])) ∧
    (∀ e : Str, w.run (combinedInstallCmd pm packages) = some e →
      ((∀ p ∈ packages, w.run (installPkgCmd pm p) = none) →
        installWithProgress w pm packages =
          (none, combinedInstallCmd pm packages :: packages.map (installPkgCmd pm))) ∧
      (∀ (xs : List Str) (p : Str) (ys : List Str) (e2 : Str), packages = xs ++ p :: ys →
        (∀ q ∈ xs, w.run (installPkgCmd pm q) = none) →
        w.run (installPkgCmd pm p) = some e2 →
        installWithProgress w pm packages =
          (some (str "ошибка установки " ++ p ++ str ": " ++ e2),
            combinedInstallCmd pm packages ::
              (xs.map (installPkgCmd pm) ++ [installPkgCmd pm p])))) := by
  constructor
  · intro hc
    simp [installWithProgress, if_pos hname, hc]
  · intro e hc
    constructor
    · intro hall
      simp only [installWithProgress, if_pos hname, hc]
      rw [installOneByOne_all_ok w pm packages hall]
    · intro xs p ys e2 hsplit hxs hp
      subst hsplit
      simp only [installWithProgress, if_pos hname, hc]
      rw [installOneByOne_first_fail w pm p e2 hp xs ys hxs]

/-- C1 witness: with `apt` and packages `git curl`, the failing combined
command falls back to the two individual installs, which succeed. -/
theorem sys_installWithProgress_fallback_witness :
    installWithProgress combinedFailWorld aptPM [str "git", str "curl"] =
      (none, combinedInstallCmd aptPM [str "git", str "curl"] ::
        [str "git", str "curl"].map (installPkgCmd aptPM)) :=
  ((sys_installWithProgress_fallback combinedFailWorld aptPM [str "git", str "curl"]
      (Or.inl rfl) (by decide)).2 (str "exit status 100") (by decide)).1 (by decide)

/-- C6: `UpdateSystem` runs the update command first; on failure it returns
the wrapped update error without running the upgrade command, otherwise it
runs the upgrade command, returning its wrapped error on failure and nil
exactly when both commands succeed. -/
theorem sys_updateSystem_order (w : SWorld) (pm : PackageManager) :
    (∀ e : Str, w.run [str "sh", str "-c", pm.Update] = some e →
      UpdateSystem w pm = (some (str "ошибка обновления списка пакетов: " ++ e),
        [[str "sh", str "-c", pm.Update]])) ∧
    (w.run [str "sh", str "-c", pm.Update] = none →
      (∀ e : Str, w.run [str "sh", str "-c", pm.Upgrade] = some e →
        UpdateSystem w pm = (some (str "ошибка обновления пакетов: " ++ e),
          [[str "sh", str "-c", pm.Update], [str "sh", str "-c", pm.Upgrade]])) ∧
      (w.run [str "sh", str "-c", pm.Upgrade] = none →
        UpdateSystem w pm =
          (none, [[str "sh", str "-c", pm.Update], [str "sh", str "-c", pm.Upgrade]]))) := by
  refine ⟨?_, ?_⟩
  · intro e he
    simp [UpdateSystem, he]
  · intro hu
    refine ⟨?_, ?_⟩
    · intro e he
      simp [UpdateSystem, hu, he]
    · intro hg
      simp [UpdateSystem, hu, hg]

/-- C6 witness: both commands succeed on the trivial host. -/
theorem sys_updateSystem_order_witness :
    UpdateSystem trivialSWorld aptPM =
      (none, [[str "sh", str "-c", aptPM.Update], [str "sh", str "-c", aptPM.Upgrade]]) :=
  ((sys_updateSystem_order trivialSWorld aptPM).2 rfl).2 rfl

end Sys

namespace Sys

theorem startsWith_iff (s pre : Str) : startsWith s pre = true ↔ pre <+: s := by
  simp [startsWith, List.isPrefixOf_iff_prefix]

theorem startsWith_eq_false_of (t a b : Str) (ht : startsWith t a = true)
    (h1 : ¬ a <+: b) (h2 : ¬ b <+: a) : startsWith t b = false := by
  rw [startsWith_iff] at ht
  rw [Bool.eq_false_iff, Ne, startsWith_iff]
  intro hb
  rcases List.prefix_or_prefix_of_prefix ht hb with h | h
  · exact h1 h
  · exact h2 h

theorem isEmpty_false_of_startsWith (t a : Str) (ht : startsWith t a = true) (ha : a ≠ []) :
    t.isEmpty = false := by
  rw [startsWith_iff] at ht
  obtain ⟨u, hu⟩ := ht
  subst hu
  cases a with
  | nil => exact absurd rfl ha
  | cons c cs => rfl

theorem rewriteSSHLine_comment (port : Int) (allowRoot passwordAuth : Bool) (line : Str)
    (h : startsWith (trimSpace line) (str "#") = true ∨ (trimSpace line).isEmpty = true) :
    rewriteSSHLine port allowRoot passwordAuth line = line := by
  rcases h with h | h <;> simp [rewriteSSHLine, h]

theorem rewriteSSHLine_port (port : Int) (allowRoot passwordAuth : Bool) (line : Str)
    (h : startsWith (trimSpace line) (str "Port ") = true) :
    rewriteSSHLine port allowRoot passwordAuth line = str "Port " ++ intToStr port := by
  have h1 : startsWith (trimSpace line) (str "#") = false :=
    startsWith_eq_false_of _ _ _ h (by decide) (by decide)
  have h2 : (trimSpace line).isEmpty = false :=
    isEmpty_false_of_startsWith _ _ h (by decide)
  simp [rewriteSSHLine, h, h1, h2]

theorem rewriteSSHLine_root (port : Int) (allowRoot passwordAuth : Bool) (line : Str)
    (h : startsWith (trimSpace line) (str "PermitRootLogin ") = true) :
    rewriteSSHLine port allowRoot passwordAuth line =
      str "PermitRootLogin " ++ (if allowRoot then str "yes" else str "no") := by
  have h1 : startsWith (trimSpace line) (str "#") = false :=
    startsWith_eq_false_of _ _ _ h (by decide) (by decide)
  have h2 : (trimSpace line).isEmpty = false :=
    isEmpty_false_of_startsWith _ _ h (by decide)
  have h3 : startsWith (trimSpace line) (str "Port ") = false :=
    startsWith_eq_false_of _ _ _ h (by decide) (by decide)
  simp [rewriteSSHLine, h, h1, h2, h3]

theorem rewriteSSHLine_password (port : Int) (allowRoot passwordAuth : Bool) (line : Str)
    (h : startsWith (trimSpace line) (str "PasswordAuthentication ") = true) :
    rewriteSSHLine port allowRoot passwordAuth line =
      str "PasswordAuthentication " ++ (if passwordAuth then str "yes" else str "no") := by
  have h1 : startsWith (trimSpace line) (str "#") = false :=
    startsWith_eq_false_of _ _ _ h (by decide) (by decide)
  have h2 : (trimSpace line).isEmpty = false :=
    isEmpty_false_of_startsWith _ _ h (by decide)
  have h3 : startsWith (trimSpace line) (str "Port ") = false :=
    startsWith_eq_false_of _ _ _ h (by decide) (by decide)
  have h4 : startsWith (trimSpace line) (str "PermitRootLogin ") = false :=
    startsWith_eq_false_of _ _ _ h (by decide) (by decide)
  simp [rewriteSSHLine, h, h1, h2, h3, h4]

/-- C5: `configureSSH` rewrites the configuration line by line: comment and
blank lines are kept verbatim, lines whose trimmed form starts with
`Port `, `PermitRootLogin ` or `PasswordAuthentication ` are replaced by the
directive built from the arguments, all other lines are kept unchanged, and
the fixed eight-line block of recommended settings is appended at the end. -/
theorem sec_configureSSH_rewrite (port : Int) (allowRoot passwordAuth : Bool) :
    (∀ content : Str, configureSSHContent port allowRoot passwordAuth content =
      joinStr ((content.splitOn (Char.ofNat 10)).map (rewriteSSHLine port allowRoot passwordAuth) ++
        recommendedSettings) (str "\n")) ∧
    recommendedSettings.length = 8 ∧
    (∀ line : Str,
      startsWith (trimSpace line) (str "#") = true ∨ (trimSpace line).isEmpty = true →
      rewriteSSHLine port allowRoot passwordAuth line = line) ∧
    (∀ line : Str, startsWith (trimSpace line) (str "Port ") = true →
      rewriteSSHLine port allowRoot passwordAuth line = str "Port " ++ intToStr port) ∧
    (∀ line : Str, startsWith (trimSpace line) (str "PermitRootLogin ") = true →
      rewriteSSHLine port allowRoot passwordAuth line =
        str "PermitRootLogin " ++ (if allowRoot then str "yes" else str "no")) ∧
    (∀ line : Str, startsWith (trimSpace line) (str "PasswordAuthentication ") = true →
      rewriteSSHLine port allowRoot passwordAuth line =
        str "PasswordAuthentication " ++ (if passwordAuth then str "yes" else str "no")) ∧
    (∀ line : Str, startsWith (trimSpace line) (str "#") = false →
      (trimSpace line).isEmpty = false →
      startsWith (trimSpace line) (str "Port ") = false →
      startsWith (trimSpace line) (str "PermitRootLogin ") = false →
      startsWith (trimSpace line) (str "PasswordAuthentication ") = false →
      rewriteSSHLine port allowRoot passwordAuth line = line) := by
  refine ⟨fun content => rfl, rfl, rewriteSSHLine_comment port allowRoot passwordAuth,
    rewriteSSHLine_port port allowRoot passwordAuth,
    rewriteSSHLine_root port allowRoot passwordAuth,
    rewriteSSHLine_password port allowRoot passwordAuth, ?_⟩
  intro line h1 h2 h3 h4 h5
  simp [rewriteSSHLine, h1, h2, h3, h4, h5]

/-- C5 witness: a `Port` directive line is replaced by the new port. -/
theorem sec_configureSSH_rewrite_witness :
    rewriteSSHLine 2222 false false (str "Port 22") = str "Port " ++ intToStr 2222 :=
  (sec_configureSSH_rewrite 2222 false false).2.2.2.1 (str "Port 22") (by decide)

end Sys

namespace Sys

/-- C4: with the firewall enabled, UFW installed, and `ufw status`
producing output, an output containing `"Status: active"` makes
`SetupFirewall` return nil having issued only the two read-only status
commands, and any UFW-modifying command in the trace can only have been
issued when the output contains `"Status: inactive"`. -/
theorem sec_setupFirewall_active_frame (w : SWorld) (order : List (Str × PackageManager))
    (config : FirewallConfig) (out : Str)
    (hE : config.Enabled = true)
    (hI : w.lookPath (str "ufw") = true)
    (hS : w.cmdOutput [str "ufw", str "status"] = Except.ok out) :
    (containsSub out (str "Status: active") = true →
      SetupFirewall w order config =
        (none, [[str "ufw", str "status"], [str "ufw", str "status", str "numbered"]])) ∧
    (containsSub out (str "Status: active") = true →
      ∀ c ∈ (SetupFirewall w order config).2, isUFWModifying c = false) ∧
    (∀ c ∈ (SetupFirewall w order config).2, isUFWModifying c = true →
      containsSub out (str "Status: inactive") = true) := by
  have hactive : containsSub out (str "Status: active") = true →
      SetupFirewall w order config =
        (none, [[str "ufw", str "status"], [str "ufw", str "status", str "numbered"]]) := by
    intro hact
    simp [SetupFirewall, hE, hI, hS, hact]
  refine ⟨hactive, ?_, ?_⟩
  · intro hact c hc
    have h2 : (SetupFirewall w order config).2 =
        [[str "ufw", str "status"], [str "ufw", str "status", str "numbered"]] := by
      rw [hactive hact]
    rw [h2] at hc
    simp only [List.mem_cons, List.not_mem_nil, or_false] at hc
    rcases hc with rfl | rfl
    · decide
    · decide
  · intro c hc hmod
    by_cases hact : containsSub out (str "Status: active") = true
    · have h2 : (SetupFirewall w order config).2 =
          [[str "ufw", str "status"], [str "ufw", str "status", str "numbered"]] := by
        rw [hactive hact]
      rw [h2] at hc
      simp only [List.mem_cons, List.not_mem_nil, or_false] at hc
      rcases hc with rfl | rfl
      · exact absurd hmod (by decide)
      · exact absurd hmod (by decide)
    · by_cases hin : containsSub out (str "Status: inactive") = true
      · exact hin
      · have hactf : containsSub out (str "Status: active") = false :=
          Bool.eq_false_iff.mpr hact
        have hinf : containsSub out (str "Status: inactive") = false :=
          Bool.eq_false_iff.mpr hin
        have h2 : (SetupFirewall w order config).2 =
            [[str "ufw", str "status"], [str "ufw", str "status", str "verbose"]] := by
          simp [SetupFirewall, hE, hI, hS, hactf, hinf]
        rw [h2] at hc
        simp only [List.mem_cons, List.not_mem_nil, or_false] at hc
        rcases hc with rfl | rfl
        · exact absurd hmod (by decide)
        · exact absurd hmod (by decide)

/-- C4 witness: an active firewall is left untouched. -/
theorem sec_setupFirewall_active_frame_witness :
    SetupFirewall activeStatusWorld packageManagersList dupRuleConfig =
      (none, [[str "ufw", str "status"], [str "ufw", str "status", str "numbered"]]) :=
  (sec_setupFirewall_active_frame activeStatusWorld packageManagersList dupRuleConfig
    (str "Status: active") rfl rfl rfl).1 (by decide)

/-- C9 (counterexample): with SSH port 22 and a custom allow rule for port
22, `applyRules` issues two allow commands for the same port. -/
theorem sec_applyRules_dup_allow_cex :
    countAllowFor 22 (applyRules trivialSWorld dupRuleConfig).2 = 2 := by decide

theorem portRulesLoop_ok (w : SWorld) (hok : ∀ c : Cmd, w.run c = none) :
    ∀ (l : List Int) (seen : List Int),
      portRulesLoop w seen l =
        (none, (dedupPorts seen l).map
          (fun p => addPortRuleCmd p (str "tcp") (str "Port " ++ intToStr p))) := by
  intro l
  induction l with
  | nil => intro seen; rfl
  | cons port rest ih =>
    intro seen
    by_cases hc : port ≤ 0 ∨ port > 65535 ∨ port ∈ seen
    · simp only [portRulesLoop, dedupPorts, if_pos hc]
      exact ih seen
    · simp only [portRulesLoop, dedupPorts, if_neg hc, hok, List.map_cons]
      rw [ih (port :: seen)]

theorem dedupPorts_mem :
    ∀ (l seen : List Int) (p : Int),
      p ∈ dedupPorts seen l ↔ p ∉ seen ∧ p ∈ l ∧ 0 < p ∧ p ≤ 65535 := by
  intro l
  induction l with
  | nil => simp [dedupPorts]
  | cons port rest ih =>
    intro seen p
    by_cases hc : port ≤ 0 ∨ port > 65535 ∨ port ∈ seen
    · rw [show dedupPorts seen (port :: rest) = dedupPorts seen rest by
        simp only [dedupPorts, if_pos hc], ih]
      constructor
      · rintro ⟨hns, hm, hr⟩
        exact ⟨hns, List.mem_cons_of_mem port hm, hr⟩
      · rintro ⟨hns, hm, hr⟩
        rcases List.mem_cons.mp hm with rfl | hm2
        · rcases hc with h | h | h
          · omega
          · omega
          · exact absurd h hns
        · exact ⟨hns, hm2, hr⟩
    · have hc2 := hc
      push_neg at hc2
      obtain ⟨hpos, hle, hnotseen⟩ := hc2
      rw [show dedupPorts seen (port :: rest) = port :: dedupPorts (port :: seen) rest by
        simp only [dedupPorts, if_neg hc]]
      constructor
      · intro hmem
        rcases List.mem_cons.mp hmem with rfl | hmem2
        · exact ⟨hnotseen, List.mem_cons_self _ _, by omega, hle⟩
        · obtain ⟨hns, hm, hr⟩ := (ih (port :: seen) p).mp hmem2
          have hne : p ≠ port := fun h => hns (h ▸ List.mem_cons_self port seen)
          exact ⟨fun h => hns (List.mem_cons_of_mem port h),
            List.mem_cons_of_mem port hm, hr⟩
      · rintro ⟨hns, hm, hr⟩
        rcases List.mem_cons.mp hm with rfl | hm2
        · exact List.mem_cons_self p _
        · by_cases hpp : p = port
          · subst hpp; exact List.mem_cons_self p _
          · refine List.mem_cons_of_mem port ((ih (port :: seen) p).mpr ⟨?_, hm2, hr⟩)
            intro h
            rcases List.mem_cons.mp h with h2 | h2
            · exact hpp h2
            · exact hns h2

theorem dedupPorts_nodup : ∀ (l seen : List Int), (dedupPorts seen l).Nodup := by
  intro l
  induction l with
  | nil => intro seen; exact List.nodup_nil
  | cons port rest ih =>
    intro seen
    by_cases hc : port ≤ 0 ∨ port > 65535 ∨ port ∈ seen
    · rw [show dedupPorts seen (port :: rest) = dedupPorts seen rest by
        simp only [dedupPorts, if_pos hc]]
      exact ih seen
    · rw [show dedupPorts seen (port :: rest) = port :: dedupPorts (port :: seen) rest by
        simp only [dedupPorts, if_neg hc]]
      refine List.nodup_cons.mpr ⟨?_, ih (port :: seen)⟩
      intro hmem
      exact ((dedupPorts_mem rest (port :: seen) port).mp hmem).1
        (List.mem_cons_self port seen)

/-- C9 (amended): the SSH-port/`OpenPorts` part of `applyRules` issues at
most one allow rule per port: the SSH rule (when the port is positive) comes
first, then one rule per `OpenPorts` entry that is in range and not yet
seen, in list order; skipped entries produce no command and no error.  (The
later custom-rule and `AllowIPs` blocks of `applyRules` can issue further
allow commands for the same ports.) -/
theorem sec_applyRules_port_phase (w : SWorld) (config : FirewallConfig)
    (hok : ∀ c : Cmd, w.run c = none) :
    (portRulesPhase w config).1 = none ∧
    (0 < config.SSHPort →
      portRulesPhase w config =
        (none, addPortRuleCmd config.SSHPort (str "tcp") (str "SSH access") ::
          (dedupPorts [config.SSHPort] config.OpenPorts).map
            (fun p => addPortRuleCmd p (str "tcp") (str "Port " ++ intToStr p)))) ∧
    (¬ 0 < config.SSHPort →
      portRulesPhase w config =
        (none, (dedupPorts [] config.OpenPorts).map
          (fun p => addPortRuleCmd p (str "tcp") (str "Port " ++ intToStr p)))) ∧
    (∀ seen l : List Int, (dedupPorts seen l).Nodup ∧
      ∀ p : Int, p ∈ dedupPorts seen l ↔ p ∉ seen ∧ p ∈ l ∧ 0 < p ∧ p ≤ 65535) :=
  by
  have hpos : 0 < config.SSHPort →
      portRulesPhase w config =
        (none, addPortRuleCmd config.SSHPort (str "tcp") (str "SSH access") ::
          (dedupPorts [config.SSHPort] config.OpenPorts).map
            (fun p => addPortRuleCmd p (str "tcp") (str "Port " ++ intToStr p))) := by
    intro h
    simp only [portRulesPhase, if_pos h, hok]
    rw [portRulesLoop_ok w hok config.OpenPorts [config.SSHPort]]
  have hneg : ¬ 0 < config.SSHPort →
      portRulesPhase w config =
        (none, (dedupPorts [] config.OpenPorts).map
          (fun p => addPortRuleCmd p (str "tcp") (str "Port " ++ intToStr p))) := by
    intro h
    simp only [portRulesPhase, if_neg h]
    exact portRulesLoop_ok w hok config.OpenPorts []
  refine ⟨?_, hpos, hneg, ?_⟩
  · by_cases h : 0 < config.SSHPort
    · rw [hpos h]
    · rw [hneg h]
  · intro seen l
    exact ⟨dedupPorts_nodup l seen, dedupPorts_mem l seen⟩

/-- C9 (amended) witness: SSH port 22 with `OpenPorts = [80, 80, 0]` issues
the SSH rule and one rule for port 80. -/
theorem sec_applyRules_port_phase_witness :
    portRulesPhase trivialSWorld
      { Enabled := true, SSHPort := 22, OpenPorts := [80, 80, 0], AllowIPs := [],
        Rules := [] } =
      (none, [addPortRuleCmd 22 (str "tcp") (str "SSH access"),
        addPortRuleCmd 80 (str "tcp") (str "Port " ++ intToStr 80)]) := by
  have h := (sec_applyRules_port_phase trivialSWorld
    { Enabled := true, SSHPort := 22, OpenPorts := [80, 80, 0], AllowIPs := [],
      Rules := [] } (fun _ => rfl)).2.1 (by decide)
  rw [h]
  decide

end Sys

namespace Ui

theorem collectErrors_length_enumFrom (results : List (Option Str)) :
    ∀ n : Nat, (collectErrors (results.enumFrom n)).length =
      (results.filter (fun r => r.isSome)).length := by
  induction results with
  | nil => intro n; rfl
  | cons r t ih =>
    intro n
    cases r with
    | none =>
      simp only [List.enumFrom, collectErrors, List.filterMap_cons, Option.map_none',
        List.filter_cons]
      simpa [collectErrors] using ih (n + 1)
    | some e =>
      simp only [List.enumFrom, collectErrors, List.filterMap_cons, Option.map_some',
        List.filter_cons]
      simpa [collectErrors] using ih (n + 1)

theorem collectErrors_length_perm (results : List (Option Str))
    (collected : List (Nat × Option Str)) (hperm : collected.Perm results.enum) :
    (collectErrors collected).length = (results.filter (fun r => r.isSome)).length := by
  have h1 : (collectErrors collected).Perm (collectErrors results.enum) :=
    hperm.filterMap _
  rw [h1.length_eq]
  exact collectErrors_length_enumFrom results 0

/-- C7: collecting exactly one result per task (in any order the scheduler
delivers them), `ParallelProgress` returns nil if and only if every task
returned nil, and otherwise returns a single error reporting the number of
failed tasks. -/
theorem ui_parallelProgress_aggregate (results : List (Option Str))
    (collected : List (Nat × Option Str)) (hperm : collected.Perm results.enum) :
    (ParallelProgress collected = none ↔ ∀ r ∈ results, r = none) ∧
    (0 < (results.filter (fun r => r.isSome)).length →
      ∃ rest : Str, ParallelProgress collected =
        some (str "ошибки в " ++ natToStr (results.filter (fun r => r.isSome)).length ++
          str " задачах: " ++ rest)) := by
  have hlen := collectErrors_length_perm results collected hperm
  constructor
  · unfold ParallelProgress
    by_cases h : (collectErrors collected).length > 0
    · rw [if_pos h]
      simp only [reduceCtorEq, false_iff]
      intro hall
      have : (results.filter (fun r => r.isSome)).length = 0 := by
        rw [List.length_eq_zero, List.filter_eq_nil_iff]
        intro a ha
        rw [hall a ha]
        simp
      omega
    · rw [if_neg h]
      simp only [true_iff]
      intro r hr
      have h0 : (results.filter (fun r => r.isSome)).length = 0 := by omega
      rw [List.length_eq_zero, List.filter_eq_nil_iff] at h0
      have := h0 r hr
      cases r with
      | none => rfl
      | some e => simp at this
  · intro hpos
    refine ⟨renderErrors (collectErrors collected), ?_⟩
    unfold ParallelProgress
    rw [if_pos (by omega), hlen]

/-- C7 witness: two tasks, the second failing, collected out of order. -/
theorem ui_parallelProgress_aggregate_witness :
    (ParallelProgress [(1, some (str "boom")), (0, none)] = none ↔
      ∀ r ∈ [none, some (str "boom")], r = none) ∧
    ∃ rest : Str, ParallelProgress [(1, some (str "boom")), (0, none)] =
      some (str "ошибки в " ++ natToStr 1 ++ str " задачах: " ++ rest) := by
  have h := ui_parallelProgress_aggregate [none, some (str "boom")]
    [(1, some (str "boom")), (0, none)] (by decide)
  exact ⟨h.1, by simpa using h.2 (by decide)⟩

end Ui
